import Mathlib

/-
Verification of the local action checker (david-wiggs/action-checker).

The definitions below are a shallow embedding of the analyzer in
src/workflow-analyzer.js and of the decision and run-id logic in
src/index.js.  YAML parsing (the js-yaml library) is external to the
repository, so the analyzer is modelled as a function on the outcome of
that parse: Except.error msg is a parser exception with message msg,
Except.ok none is a document that loads as null or undefined (for example
the empty document), and Except.ok (some w) is a loaded document.
JavaScript truthiness tests on strings ("" is falsy) and numbers (0 is
falsy) are translated explicitly where they occur in the source.
-/

namespace ActionChecker

/-- A workflow step as read from the parsed YAML document: the optional
declared name and the optional `uses` action reference. -/
structure Step where
  name : Option String
  uses : Option String
  deriving DecidableEq

/-- A job: its optional list of steps (none models an absent or non-array
`steps` property, which workflow-analyzer.js guards with Array.isArray). -/
structure Job where
  steps : Option (List Step)
  deriving DecidableEq

/-- A parsed workflow document: the optional `jobs` mapping, in declaration
order (JavaScript object keys preserve insertion order). -/
structure Workflow where
  jobs : Option (List (String × Job))
  deriving DecidableEq

/-- Boolean test that the first character list is a leading segment of the
second.  Models the JavaScript String startsWith check used by
workflow-analyzer.js. -/
def leadsWith : List Char → List Char → Bool
  | [], _ => true
  | _ :: _, [] => false
  | p :: ps, c :: cs => p == c && leadsWith ps cs

/-- The JavaScript `s.startsWith(pat)` test. -/
def strStartsWith (s pat : String) : Bool :=
  leadsWith pat.data s.data

/-- The JavaScript `s.includes(c)` test for a single character. -/
def strContainsChar (s : String) (c : Char) : Bool :=
  s.data.any (fun a => a == c)

/-- The JavaScript Array.prototype.join with the given separator
(join of the empty array is the empty string). -/
def joinWith (sep : String) : List String → String
  | [] => ""
  | s :: ss => ss.foldl (fun acc x => acc ++ sep ++ x) s

/-- Concatenation of a list of lists, in order. -/
def concatAll {α : Type} : List (List α) → List α
  | [] => []
  | l :: ls => l ++ concatAll ls

/-- Helper for dedupFirst: keeps the elements not already seen, first
occurrence first, threading the set of seen elements. -/
def dedupFirstAux (seen : List String) : List String → List String
  | [] => []
  | x :: xs => if x ∈ seen then dedupFirstAux seen xs else x :: dedupFirstAux (x :: seen) xs

/-- Deduplication keeping the first occurrence of each element, in order.
Models `[...new Set(array)]` at workflow-analyzer.js line 65. -/
def dedupFirst (l : List String) : List String :=
  dedupFirstAux [] l

/-- WorkflowAnalyzer.isLocalAction (workflow-analyzer.js lines 85-92):
false for an absent or empty reference (the JavaScript `!actionRef` and
typeof guard), otherwise true exactly when the reference starts with "./"
or equals ".". -/
def isLocalAction (actionRef : Option String) : Bool :=
  match actionRef with
  | none => false
  | some s => if s = "" then false else (strStartsWith s "./" || decide (s = "."))

/-- One analyzed step (the stepResult object of workflow-analyzer.js
lines 36-41). -/
structure StepResult where
  index : Nat
  name : String
  hasLocalAction : Bool
  actionPath : Option String
  deriving DecidableEq

/-- One analyzed job (the jobResult object of workflow-analyzer.js
lines 25-30). -/
structure JobResult where
  name : String
  hasLocalActions : Bool
  localActions : List String
  steps : List StepResult
  deriving DecidableEq

/-- The analysis report (the result object of workflow-analyzer.js
lines 12-17; the error field is set only by the catch block at
lines 68-77). -/
structure Analysis where
  hasLocalActions : Bool
  localActions : List String
  totalSteps : Nat
  jobs : List JobResult
  error : Option String
  deriving DecidableEq

/-- The display name of a step: the declared name when it is a non-empty
string, otherwise the synthesized "Step N" with N the 1-based position.
Models the JavaScript `step.name || ` template at workflow-analyzer.js
line 38, where the empty string is falsy. -/
def stepDisplayName (stepIndex : Nat) (step : Step) : String :=
  match step.name with
  | none => "Step " ++ toString (stepIndex + 1)
  | some n => if n = "" then "Step " ++ toString (stepIndex + 1) else n

/-- Analysis of one step (workflow-analyzer.js lines 33-57): the
actionPath is recorded only when `uses` is a non-empty string (the
JavaScript `if (step.uses)` truthiness guard), and hasLocalAction is the
isLocalAction test on it. -/
def analyzeStep (stepIndex : Nat) (step : Step) : StepResult :=
  match step.uses with
  | none => ⟨stepIndex, stepDisplayName stepIndex step, false, none⟩
  | some u =>
    if u = "" then ⟨stepIndex, stepDisplayName stepIndex step, false, none⟩
    else ⟨stepIndex, stepDisplayName stepIndex step, isLocalAction (some u), some u⟩

/-- Analysis of a list of steps starting at the given 0-based index
(the forEach with stepIndex at workflow-analyzer.js line 33). -/
def analyzeSteps (startIndex : Nat) : List Step → List StepResult
  | [] => []
  | s :: ss => analyzeStep startIndex s :: analyzeSteps (startIndex + 1) ss

/-- Analysis of one job (workflow-analyzer.js lines 24-62): steps are
analyzed in order; hasLocalActions is true when some step uses a local
action; localActions collects, in step order, the `uses` reference of
every local step. -/
def analyzeJob (jobName : String) (job : Job) : JobResult :=
  match job.steps with
  | none => ⟨jobName, false, [], []⟩
  | some ss =>
    let stepResults := analyzeSteps 0 ss
    ⟨jobName,
     stepResults.any (fun st => st.hasLocalAction),
     stepResults.filterMap (fun st => if st.hasLocalAction then st.actionPath else none),
     stepResults⟩

/-- WorkflowAnalyzer.analyzeWorkflow (workflow-analyzer.js lines 9-78) as
a function of the parse outcome.  A parse failure yields the zero report
with the parser message in error (lines 68-77); a null document or a
document without a jobs collection yields the zero, error-free report
(lines 19-21); otherwise every job is analyzed in declaration order and
the top-level localActions list is deduplicated (line 65). -/
def analyzeWorkflow (parsed : Except String (Option Workflow)) : Analysis :=
  match parsed with
  | Except.error msg => ⟨false, [], 0, [], some msg⟩
  | Except.ok none => ⟨false, [], 0, [], none⟩
  | Except.ok (some w) =>
    match w.jobs with
    | none => ⟨false, [], 0, [], none⟩
    | some jobs =>
      let jobResults := jobs.map (fun nj => analyzeJob nj.1 nj.2)
      ⟨jobResults.any (fun jr => jr.hasLocalActions),
       dedupFirst (concatAll (jobResults.map (fun jr => jr.localActions))),
       (jobResults.map (fun jr => jr.steps.length)).sum,
       jobResults,
       none⟩

/-- The four action categories of the breakdown in getActionDetails. -/
inductive ActionCategory where
  | localAction
  | docker
  | external
  | marketplace
  deriving DecidableEq

/-- The classification chain of getActionDetails (workflow-analyzer.js
lines 145-155), including its guard `if (step.actionPath)` (line 137):
an absent or empty reference is not routed at all (none); otherwise local
actions first, then docker:// references, then references containing a
slash (external), else marketplace. -/
def classify (actionRef : Option String) : Option ActionCategory :=
  match actionRef with
  | none => none
  | some s =>
    if s = "" then none
    else if isLocalAction (some s) then some ActionCategory.localAction
    else if strStartsWith s "docker://" then some ActionCategory.docker
    else if strContainsChar s '/' then some ActionCategory.external
    else some ActionCategory.marketplace

/-- The actionInfo object pushed into a bucket (workflow-analyzer.js
lines 138-143). -/
structure ActionInfo where
  path : String
  jobName : String
  stepName : String
  stepIndex : Nat
  deriving DecidableEq

/-- The actionInfo records of one analyzed job, in step order, restricted
to steps with a truthy actionPath (the `if (step.actionPath)` guard). -/
def actionInfosOfJob (job : JobResult) : List ActionInfo :=
  job.steps.filterMap (fun st =>
    st.actionPath.bind (fun p =>
      if p = "" then none else some ⟨p, job.name, st.name, st.index⟩))

/-- All actionInfo records of an analysis, jobs in order. -/
def actionInfos (a : Analysis) : List ActionInfo :=
  concatAll (a.jobs.map actionInfosOfJob)

/-- The four buckets of getActionDetails (the actions object at
workflow-analyzer.js lines 128-133; the source field name of the first
bucket is `local`, which is a reserved word here). -/
structure ActionBreakdown where
  locals : List ActionInfo
  external : List ActionInfo
  marketplace : List ActionInfo
  docker : List ActionInfo
  deriving DecidableEq

/-- The single routing pass of getActionDetails (workflow-analyzer.js
lines 135-158): each action-bearing step is pushed, in traversal order,
into the bucket selected by the classification chain. -/
def actionBreakdownOf (a : Analysis) : ActionBreakdown :=
  ⟨(actionInfos a).filter (fun i => decide (classify (some i.path) = some ActionCategory.localAction)),
   (actionInfos a).filter (fun i => decide (classify (some i.path) = some ActionCategory.external)),
   (actionInfos a).filter (fun i => decide (classify (some i.path) = some ActionCategory.marketplace)),
   (actionInfos a).filter (fun i => decide (classify (some i.path) = some ActionCategory.docker))⟩

/-- The summary object of getActionDetails (workflow-analyzer.js
lines 163-170). -/
structure Summary where
  totalActions : Nat
  localCount : Nat
  externalCount : Nat
  marketplaceCount : Nat
  dockerCount : Nat
  deriving DecidableEq

/-- The summary counts (workflow-analyzer.js lines 163-170). -/
def summaryOf (b : ActionBreakdown) : Summary :=
  ⟨b.locals.length + b.external.length + b.marketplace.length + b.docker.length,
   b.locals.length, b.external.length, b.marketplace.length, b.docker.length⟩

/-- The return value of getActionDetails: the analysis, with the
breakdown and summary present only on the error-free path (the early
return at workflow-analyzer.js lines 124-126 returns the analysis object
itself, which carries no actionBreakdown and no summary key). -/
structure ActionDetails where
  analysis : Analysis
  actionBreakdown : Option ActionBreakdown
  summary : Option Summary
  deriving DecidableEq

/-- WorkflowAnalyzer.getActionDetails (workflow-analyzer.js
lines 121-172) as a function of the parse outcome. -/
def getActionDetails (parsed : Except String (Option Workflow)) : ActionDetails :=
  let a := analyzeWorkflow parsed
  if a.error.isSome then ⟨a, none, none⟩
  else ⟨a, some (actionBreakdownOf a), some (summaryOf (actionBreakdownOf a))⟩

/-- The verdict state sent back through the protection rule API. -/
inductive VerdictState where
  | approved
  | rejected
  deriving DecidableEq

/-- The verdict: state plus the rationale comment. -/
structure Verdict where
  state : VerdictState
  rationale : String
  deriving DecidableEq

/-- The decision step of the deployment_protection_rule.requested handler
(src/index.js lines 174-185) together with the message composition of the
rejection call (line 181) and of approveDeployment (lines 297-299).  The
spec names this function decide.  Note that the handler inspects only
hasLocalActions and the policy flag; it never inspects the error field of
the report. -/
def decideDeployment (report : Analysis) (allowLocalActions : Bool) : Verdict :=
  if report.hasLocalActions && !allowLocalActions then
    ⟨VerdictState.rejected,
     "Deployment rejected: Workflow uses local actions: " ++ joinWith ", " report.localActions⟩
  else if report.hasLocalActions then
    ⟨VerdictState.approved,
     "Deployment approved despite local actions: " ++ joinWith ", " report.localActions⟩
  else
    ⟨VerdictState.approved, "Deployment approved: No local actions detected"⟩

/-- The tail of the deployment_protection_rule.requested handler once the
workflow run is resolved and its file content fetched (src/index.js
lines 156-185): the run's declared path (workflowRun.path) is used only to
fetch the file and is not consulted by the decision logic, which analyzes
the fetched content and decides from the report and the policy flag. -/
def handleWorkflowRun (runPath : String) (parsed : Except String (Option Workflow))
    (allowLocalActions : Bool) : Verdict :=
  decideDeployment (analyzeWorkflow parsed) allowLocalActions

/-- The payload fields consulted by getWorkflowRunIdFromPayload:
the _workflowRunId stored at src/index.js line 157, the
deployment_callback_url, and deployment.id (each possibly absent). -/
structure Payload where
  workflowRunId : Option Nat
  deploymentCallbackUrl : Option String
  deploymentId : Option Nat
  deriving DecidableEq

/-- Numeric value of a list of decimal digit characters, in base 10.
Models parseInt(digits, 10). -/
def digitsVal (ds : List Char) : Nat :=
  ds.foldl (fun acc c => acc * 10 + (c.toNat - 48)) 0

/-- Attempt to match, at the head of the character list, the regular
expression of src/index.js line 380: the literal "/actions/runs/", one or
more decimal digits (greedy), then the literal
"/deployment_protection_rule"; on success, the value of the digits. -/
def matchRunAt (cs : List Char) : Option Nat :=
  match leadsWithRest "/actions/runs/".data cs with
  | none => none
  | some rest =>
    let ds := rest.takeWhile (fun c => c.isDigit)
    let rest2 := rest.dropWhile (fun c => c.isDigit)
    match ds with
    | [] => none
    | _ :: _ =>
      match leadsWithRest "/deployment_protection_rule".data rest2 with
      | none => none
      | some _ => some (digitsVal ds)
where
  /-- Strips the given leading segment, returning the remainder. -/
  leadsWithRest : List Char → List Char → Option (List Char)
    | [], cs => some cs
    | _ :: _, [] => none
    | p :: ps, c :: cs => if p == c then leadsWithRest ps cs else none

/-- Leftmost match of the run-id pattern, scanning every start position
in order (the semantics of String.prototype.match with an unanchored
regular expression). -/
def findRunId : List Char → Option Nat
  | [] => none
  | c :: cs =>
    match matchRunAt (c :: cs) with
    | some n => some n
    | none => findRunId cs

/-- The run id parsed out of the deployment callback URL (src/index.js
lines 379-385). -/
def extractRunId (url : String) : Option Nat :=
  findRunId url.data

/-- The callback-URL and deployment-id fallbacks of
getWorkflowRunIdFromPayload (src/index.js lines 377-390). -/
def runIdFromCallbackOrDeployment (p : Payload) : Option Nat :=
  match p.deploymentCallbackUrl with
  | some url =>
    match extractRunId url with
    | some n => some n
    | none => p.deploymentId
  | none => p.deploymentId

/-- getWorkflowRunIdFromPayload (src/index.js lines 369-395): the stored
_workflowRunId wins when set (the JavaScript truthiness test at line 372,
under which the number 0 would be skipped); otherwise the id parsed from
the callback URL; otherwise deployment.id. -/
def getWorkflowRunIdFromPayload (p : Payload) : Option Nat :=
  match p.workflowRunId with
  | some id => if id = 0 then runIdFromCallbackOrDeployment p else some id
  | none => runIdFromCallbackOrDeployment p

/-- A workflow whose single job has one step using the local action
"./my-action" (Scenario A of the spec). -/
def localStepWorkflow : Workflow :=
  ⟨some [("build", ⟨some [⟨none, some "./my-action"⟩]⟩)]⟩

/-- A workflow whose single job uses the local action "./a" twice and
actions/checkout@v4 once. -/
def dupLocalWorkflow : Workflow :=
  ⟨some [("build", ⟨some [⟨none, some "./a"⟩, ⟨none, some "./a"⟩,
                          ⟨none, some "actions/checkout@v4"⟩]⟩)]⟩

/-- A deployment callback URL of the documented shape. -/
def sampleCallbackUrl : String :=
  "https://api.github.com/repos/octo-org/octo-repo/actions/runs/12345/deployment_protection_rule"

/-- Unfolding equation for dedupFirstAux on a cons cell. -/
theorem dedupFirstAux_cons (seen : List String) (x : String) (xs : List String) :
    dedupFirstAux seen (x :: xs)
      = if x ∈ seen then dedupFirstAux seen xs else x :: dedupFirstAux (x :: seen) xs :=
  rfl

/-- The deduplicated list has no duplicates, and avoids the seen set. -/
theorem dedupFirstAux_nodup (l : List String) : ∀ seen : List String,
    (dedupFirstAux seen l).Nodup ∧ ∀ a ∈ dedupFirstAux seen l, a ∉ seen := by
  induction l with
  | nil => intro seen; simp [dedupFirstAux]
  | cons x xs ih =>
    intro seen
    by_cases hx : x ∈ seen
    · simpa [dedupFirstAux_cons, hx] using ih seen
    · have h2 := ih (x :: seen)
      rw [dedupFirstAux_cons, if_neg hx]
      constructor
      · refine List.nodup_cons.2 ⟨?_, h2.1⟩
        intro hmem
        exact (h2.2 x hmem) (List.mem_cons_self x seen)
      · intro a ha
        rcases List.mem_cons.1 ha with rfl | ha2
        · exact hx
        · intro haseen
          exact (h2.2 a ha2) (List.mem_cons_of_mem _ haseen)

/-- dedupFirst produces a list without duplicates. -/
theorem dedupFirst_nodup (l : List String) : (dedupFirst l).Nodup :=
  (dedupFirstAux_nodup l []).1

/-- The top-level localActions list of any analysis report has no
duplicates (it is either empty or the deduplication of line 65). -/
theorem localActions_nodup (parsed : Except String (Option Workflow)) :
    (analyzeWorkflow parsed).localActions.Nodup := by
  cases parsed with
  | error msg => exact List.nodup_nil
  | ok doc =>
    cases doc with
    | none => exact List.nodup_nil
    | some w =>
      obtain ⟨jobs⟩ := w
      cases jobs with
      | none => exact List.nodup_nil
      | some js => exact dedupFirst_nodup _

/-- Membership in a concatenation. -/
theorem mem_concatAll {α : Type} (a : α) : ∀ L : List (List α),
    a ∈ concatAll L ↔ ∃ l, l ∈ L ∧ a ∈ l := by
  intro L
  induction L with
  | nil => simp [concatAll]
  | cons l ls ih =>
    simp only [concatAll, List.mem_append, ih, List.mem_cons]
    constructor
    · rintro (h | ⟨m, hm, ham⟩)
      · exact ⟨l, Or.inl rfl, h⟩
      · exact ⟨m, Or.inr hm, ham⟩
    · rintro ⟨m, rfl | hm, ham⟩
      · exact Or.inl ham
      · exact Or.inr ⟨m, hm, ham⟩

/-- Unfolding equation for isLocalAction on a present reference. -/
theorem isLocalAction_some_eq (s : String) :
    isLocalAction (some s)
      = if s = "" then false else (strStartsWith s "./" || decide (s = ".")) :=
  rfl

/-- Unfolding equation for classify on a present reference. -/
theorem classify_some_eq (s : String) :
    classify (some s)
      = if s = "" then none
        else if isLocalAction (some s) then some ActionCategory.localAction
        else if strStartsWith s "docker://" then some ActionCategory.docker
        else if strContainsChar s '/' then some ActionCategory.external
        else some ActionCategory.marketplace :=
  rfl

/-- A non-empty reference is always routed to some bucket. -/
theorem classify_isSome {s : String} (h : s ≠ "") :
    ∃ c, classify (some s) = some c := by
  rw [classify_some_eq, if_neg h]
  split_ifs <;> exact ⟨_, rfl⟩

/-- Every actionInfo record carries a non-empty path: the routing guard
`if (step.actionPath)` skips absent and empty references. -/
theorem path_ne_of_mem_actionInfos (a : Analysis) (info : ActionInfo)
    (h : info ∈ actionInfos a) : info.path ≠ "" := by
  rw [actionInfos, mem_concatAll] at h
  obtain ⟨l, hl, hil⟩ := h
  rw [List.mem_map] at hl
  obtain ⟨jr, _, rfl⟩ := hl
  rw [actionInfosOfJob, List.mem_filterMap] at hil
  obtain ⟨st, _, hst⟩ := hil
  cases hap : st.actionPath with
  | none => rw [hap] at hst; simp at hst
  | some p =>
    rw [hap] at hst
    by_cases hp : p = ""
    · simp [hp] at hst
    · simp only [Option.some_bind, if_neg hp, Option.some.injEq] at hst
      rw [← hst]
      exact hp

/-- The four bucket filters partition any list of actionInfo records
whose paths are non-empty. -/
theorem bucket_partition_length (l : List ActionInfo)
    (h : ∀ i ∈ l, i.path ≠ "") :
    (l.filter (fun i => decide (classify (some i.path) = some ActionCategory.localAction))).length
      + (l.filter (fun i => decide (classify (some i.path) = some ActionCategory.external))).length
      + (l.filter (fun i => decide (classify (some i.path) = some ActionCategory.marketplace))).length
      + (l.filter (fun i => decide (classify (some i.path) = some ActionCategory.docker))).length
      = l.length := by
  induction l with
  | nil => rfl
  | cons x xs ih =>
    have hx : x.path ≠ "" := h x (List.mem_cons_self x xs)
    have hxs : ∀ i ∈ xs, i.path ≠ "" := fun i hi => h i (List.mem_cons_of_mem x hi)
    obtain ⟨c, hc⟩ := classify_isSome hx
    have ih2 := ih hxs
    cases c <;> simp [List.filter_cons, hc] <;> omega

/-- C1: the claim states that a report with parseError set is always
rejected with rationale "could not analyze workflow".  The decision step
of src/index.js never inspects the error field: at a parse-failure report
it approves with "Deployment approved: No local actions detected" under
both policy values.  This theorem evaluates the code at that failing
input. -/
theorem c1_parse_failure_approved :
    (analyzeWorkflow (Except.error "unexpected end of the stream")).error
      = some "unexpected end of the stream" ∧
    decideDeployment (analyzeWorkflow (Except.error "unexpected end of the stream")) false
      = ⟨VerdictState.approved, "Deployment approved: No local actions detected"⟩ ∧
    decideDeployment (analyzeWorkflow (Except.error "unexpected end of the stream")) true
      = ⟨VerdictState.approved, "Deployment approved: No local actions detected"⟩ :=
  ⟨rfl, rfl, rfl⟩

/-- C2: the claim states that a run whose declared path contains
"dynamic/github-code-scanning/codeql" is always approved with rationale
"dynamic workflow ignored".  No such check exists in src/index.js: with
that exact path, a workflow using "./my-action", and the policy flag
false, the handler rejects.  This theorem evaluates the code at that
failing input. -/
theorem c2_dynamic_workflow_rejected :
    handleWorkflowRun "dynamic/github-code-scanning/codeql"
        (Except.ok (some localStepWorkflow)) false
      = ⟨VerdictState.rejected,
         "Deployment rejected: Workflow uses local actions: ./my-action"⟩ :=
  rfl

/-- C3: for an error-free analysis report, local actions with the flag
down reject with the comma-joined distinct local action list after
"Deployment rejected: Workflow uses local actions: "; with the flag up
they approve with the same list after "Deployment approved despite local
actions: "; no local actions approve with "Deployment approved: No local
actions detected".  The localActions list is duplicate-free. -/
theorem c3_decide_verdicts (parsed : Except String (Option Workflow))
    (h : (analyzeWorkflow parsed).error = none) :
    (analyzeWorkflow parsed).localActions.Nodup ∧
    ((analyzeWorkflow parsed).hasLocalActions = true →
      decideDeployment (analyzeWorkflow parsed) false
        = ⟨VerdictState.rejected,
           "Deployment rejected: Workflow uses local actions: "
             ++ joinWith ", " (analyzeWorkflow parsed).localActions⟩ ∧
      decideDeployment (analyzeWorkflow parsed) true
        = ⟨VerdictState.approved,
           "Deployment approved despite local actions: "
             ++ joinWith ", " (analyzeWorkflow parsed).localActions⟩) ∧
    ((analyzeWorkflow parsed).hasLocalActions = false →
      ∀ allow : Bool, decideDeployment (analyzeWorkflow parsed) allow
        = ⟨VerdictState.approved, "Deployment approved: No local actions detected"⟩) := by
  refine ⟨localActions_nodup parsed, fun hl => ⟨?_, ?_⟩, fun hl allow => ?_⟩ <;>
    simp [decideDeployment, hl]

/-- Witness for C3: on the workflow using "./a" twice and
actions/checkout@v4 once, the deduplicated list is ["./a"] and both
verdict shapes are realized. -/
theorem c3_decide_verdicts_witness :
    (analyzeWorkflow (Except.ok (some dupLocalWorkflow))).localActions = ["./a"] ∧
    decideDeployment (analyzeWorkflow (Except.ok (some dupLocalWorkflow))) false
      = ⟨VerdictState.rejected, "Deployment rejected: Workflow uses local actions: ./a"⟩ ∧
    decideDeployment (analyzeWorkflow (Except.ok (some dupLocalWorkflow))) true
      = ⟨VerdictState.approved, "Deployment approved despite local actions: ./a"⟩ := by
  have h := c3_decide_verdicts (Except.ok (some dupLocalWorkflow)) rfl
  exact ⟨rfl, ((h.2.1 rfl).1).trans (by rfl), ((h.2.1 rfl).2).trans (by rfl)⟩

/-- C4: the classification precedence of getActionDetails: an absent or
empty reference is never routed (in particular never local); a reference
equal to "." or starting with "./" is local; otherwise a docker://
reference is docker; otherwise a reference containing a slash is
external; otherwise marketplace.  (classify is a total function by
construction, hence deterministic.) -/
theorem c4_classify_rules :
    classify none = none ∧
    classify (some "") = none ∧
    (∀ s : String, s ≠ "" → (s = "." ∨ strStartsWith s "./" = true) →
        classify (some s) = some ActionCategory.localAction) ∧
    (∀ s : String, s ≠ "" → ¬(s = "." ∨ strStartsWith s "./" = true) →
        strStartsWith s "docker://" = true →
        classify (some s) = some ActionCategory.docker) ∧
    (∀ s : String, s ≠ "" → ¬(s = "." ∨ strStartsWith s "./" = true) →
        strStartsWith s "docker://" = false → strContainsChar s '/' = true →
        classify (some s) = some ActionCategory.external) ∧
    (∀ s : String, s ≠ "" → ¬(s = "." ∨ strStartsWith s "./" = true) →
        strStartsWith s "docker://" = false → strContainsChar s '/' = false →
        classify (some s) = some ActionCategory.marketplace) := by
  have hloc : ∀ s : String, s ≠ "" →
      (isLocalAction (some s) = true ↔ (s = "." ∨ strStartsWith s "./" = true)) := by
    intro s hs
    rw [isLocalAction_some_eq, if_neg hs]
    simp [Bool.or_eq_true, or_comm]
  refine ⟨rfl, rfl, ?_, ?_, ?_, ?_⟩
  · intro s hs hcond
    have hl : isLocalAction (some s) = true := (hloc s hs).2 hcond
    rw [classify_some_eq, if_neg hs, if_pos hl]
  · intro s hs hcond hdock
    have hl : isLocalAction (some s) = false :=
      Bool.eq_false_iff.2 (fun hh => hcond ((hloc s hs).1 hh))
    rw [classify_some_eq, if_neg hs]
    simp [hl, hdock]
  · intro s hs hcond hdock hsl
    have hl : isLocalAction (some s) = false :=
      Bool.eq_false_iff.2 (fun hh => hcond ((hloc s hs).1 hh))
    rw [classify_some_eq, if_neg hs]
    simp [hl, hdock, hsl]
  · intro s hs hcond hdock hsl
    have hl : isLocalAction (some s) = false :=
      Bool.eq_false_iff.2 (fun hh => hcond ((hloc s hs).1 hh))
    rw [classify_some_eq, if_neg hs]
    simp [hl, hdock, hsl]

/-- Witness for C4: a representative of each classification outcome. -/
theorem c4_classify_rules_witness :
    classify (some "./setup") = some ActionCategory.localAction ∧
    classify (some ".") = some ActionCategory.localAction ∧
    classify (some "docker://alpine:3") = some ActionCategory.docker ∧
    classify (some "actions/checkout@v4") = some ActionCategory.external ∧
    classify (some "setup-node") = some ActionCategory.marketplace := by
  have h := c4_classify_rules
  exact ⟨h.2.2.1 "./setup" (by decide) (Or.inr (by rfl)),
         h.2.2.1 "." (by decide) (Or.inl rfl),
         h.2.2.2.1 "docker://alpine:3" (by decide) (by decide) (by rfl),
         h.2.2.2.2.1 "actions/checkout@v4" (by decide) (by decide) (by rfl) (by rfl),
         h.2.2.2.2.2 "setup-node" (by decide) (by decide) (by rfl) (by rfl)⟩

/-- C5: on an error-free analysis, getActionDetails carries the breakdown
and summary; every action-bearing step record belongs to exactly one of
the four buckets (membership in each bucket is equivalent to its
classification, which exists and is unique); every bucket element comes
from the action-bearing records; the bucket sizes sum to the number of
action-bearing records; and the summary counts are exactly the bucket
sizes with totalActions their sum. -/
theorem c5_breakdown_partition (parsed : Except String (Option Workflow))
    (h : (analyzeWorkflow parsed).error = none) :
    getActionDetails parsed
      = ⟨analyzeWorkflow parsed,
         some (actionBreakdownOf (analyzeWorkflow parsed)),
         some (summaryOf (actionBreakdownOf (analyzeWorkflow parsed)))⟩ ∧
    (∀ info ∈ actionInfos (analyzeWorkflow parsed),
      ∃ c, classify (some info.path) = some c ∧
        (info ∈ (actionBreakdownOf (analyzeWorkflow parsed)).locals ↔ c = ActionCategory.localAction) ∧
        (info ∈ (actionBreakdownOf (analyzeWorkflow parsed)).external ↔ c = ActionCategory.external) ∧
        (info ∈ (actionBreakdownOf (analyzeWorkflow parsed)).marketplace ↔ c = ActionCategory.marketplace) ∧
        (info ∈ (actionBreakdownOf (analyzeWorkflow parsed)).docker ↔ c = ActionCategory.docker)) ∧
    (∀ info : ActionInfo,
        (info ∈ (actionBreakdownOf (analyzeWorkflow parsed)).locals ∨
         info ∈ (actionBreakdownOf (analyzeWorkflow parsed)).external ∨
         info ∈ (actionBreakdownOf (analyzeWorkflow parsed)).marketplace ∨
         info ∈ (actionBreakdownOf (analyzeWorkflow parsed)).docker) →
        info ∈ actionInfos (analyzeWorkflow parsed)) ∧
    ((actionBreakdownOf (analyzeWorkflow parsed)).locals.length
      + (actionBreakdownOf (analyzeWorkflow parsed)).external.length
      + (actionBreakdownOf (analyzeWorkflow parsed)).marketplace.length
      + (actionBreakdownOf (analyzeWorkflow parsed)).docker.length
      = (actionInfos (analyzeWorkflow parsed)).length) ∧
    summaryOf (actionBreakdownOf (analyzeWorkflow parsed))
      = ⟨(actionInfos (analyzeWorkflow parsed)).length,
         (actionBreakdownOf (analyzeWorkflow parsed)).locals.length,
         (actionBreakdownOf (analyzeWorkflow parsed)).external.length,
         (actionBreakdownOf (analyzeWorkflow parsed)).marketplace.length,
         (actionBreakdownOf (analyzeWorkflow parsed)).docker.length⟩ := by
  have hne : ∀ info ∈ actionInfos (analyzeWorkflow parsed), info.path ≠ "" :=
    fun info hi => path_ne_of_mem_actionInfos _ info hi
  have hpart := bucket_partition_length (actionInfos (analyzeWorkflow parsed)) hne
  refine ⟨?_, ?_, ?_, hpart, ?_⟩
  · have h2 : (analyzeWorkflow parsed).error.isSome = false := by rw [h]; rfl
    simp [getActionDetails, h2]
  · intro info hi
    obtain ⟨c, hc⟩ := classify_isSome (hne info hi)
    refine ⟨c, hc, ?_, ?_, ?_, ?_⟩ <;>
      simp [actionBreakdownOf, List.mem_filter, hi, hc]
  · intro info hinfo
    rcases hinfo with h1 | h1 | h1 | h1 <;>
      exact (List.mem_filter.1 h1).1
  · have hpart2 : (actionBreakdownOf (analyzeWorkflow parsed)).locals.length
        + (actionBreakdownOf (analyzeWorkflow parsed)).external.length
        + (actionBreakdownOf (analyzeWorkflow parsed)).marketplace.length
        + (actionBreakdownOf (analyzeWorkflow parsed)).docker.length
        = (actionInfos (analyzeWorkflow parsed)).length := hpart
    rw [summaryOf, hpart2]

/-- Witness for C5: on the workflow using "./a" twice and
actions/checkout@v4 once, the summary is 3 actions: 2 local, 1 external,
0 marketplace, 0 docker. -/
theorem c5_breakdown_partition_witness :
    getActionDetails (Except.ok (some dupLocalWorkflow))
      = ⟨analyzeWorkflow (Except.ok (some dupLocalWorkflow)),
         some (actionBreakdownOf (analyzeWorkflow (Except.ok (some dupLocalWorkflow)))),
         some (summaryOf (actionBreakdownOf (analyzeWorkflow (Except.ok (some dupLocalWorkflow)))))⟩ ∧
    summaryOf (actionBreakdownOf (analyzeWorkflow (Except.ok (some dupLocalWorkflow))))
      = ⟨3, 2, 1, 0, 0⟩ := by
  have h := c5_breakdown_partition (Except.ok (some dupLocalWorkflow)) rfl
  exact ⟨h.1, by rfl⟩

/-- C6: a successfully parsed document with no job collection, including
the null or empty document, yields the zero, error-free report: no jobs,
totalSteps 0, hasLocalActions false, empty localActions, no error. -/
theorem c6_no_jobs_report (w : Workflow) (h : w.jobs = none) :
    analyzeWorkflow (Except.ok (some w)) = ⟨false, [], 0, [], none⟩ ∧
    analyzeWorkflow (Except.ok none) = ⟨false, [], 0, [], none⟩ := by
  refine ⟨?_, rfl⟩
  obtain ⟨jobs⟩ := w
  have h2 : jobs = none := h
  subst h2
  rfl

/-- Witness for C6: the document that declares nothing. -/
theorem c6_no_jobs_report_witness :
    analyzeWorkflow (Except.ok (some ⟨none⟩)) = ⟨false, [], 0, [], none⟩ :=
  (c6_no_jobs_report ⟨none⟩ rfl).1

/-- C7: the run identifier used when submitting a verdict follows the
ordered fallback chain of getWorkflowRunIdFromPayload: the stored run id
wins when present (run identifiers are the positive ids of resolved
workflow runs); otherwise the id parsed from the callback URL when it
matches the expected shape; otherwise the deployment id. -/
theorem c7_run_id_fallback (p : Payload) :
    (∀ id : Nat, id ≠ 0 → p.workflowRunId = some id →
        getWorkflowRunIdFromPayload p = some id) ∧
    (p.workflowRunId = none → ∀ url n, p.deploymentCallbackUrl = some url →
        extractRunId url = some n → getWorkflowRunIdFromPayload p = some n) ∧
    (p.workflowRunId = none → ∀ url, p.deploymentCallbackUrl = some url →
        extractRunId url = none → getWorkflowRunIdFromPayload p = p.deploymentId) ∧
    (p.workflowRunId = none → p.deploymentCallbackUrl = none →
        getWorkflowRunIdFromPayload p = p.deploymentId) := by
  obtain ⟨wr, cb, dep⟩ := p
  refine ⟨?_, ?_, ?_, ?_⟩
  · intro id hid hwr
    have h2 : wr = some id := hwr
    subst h2
    simp [getWorkflowRunIdFromPayload, hid]
  · intro hwr url n hcb hex
    have h2 : wr = none := hwr
    subst h2
    have h3 : cb = some url := hcb
    subst h3
    simp [getWorkflowRunIdFromPayload, runIdFromCallbackOrDeployment, hex]
  · intro hwr url hcb hex
    have h2 : wr = none := hwr
    subst h2
    have h3 : cb = some url := hcb
    subst h3
    simp [getWorkflowRunIdFromPayload, runIdFromCallbackOrDeployment, hex]
  · intro hwr hcb
    have h2 : wr = none := hwr
    subst h2
    have h3 : cb = none := hcb
    subst h3
    simp [getWorkflowRunIdFromPayload, runIdFromCallbackOrDeployment]

/-- Witness for C7: the stored id wins; without it the id 12345 is parsed
from the documented callback URL shape; without a callback URL the
deployment id 42 is used. -/
theorem c7_run_id_fallback_witness :
    getWorkflowRunIdFromPayload ⟨some 777, some sampleCallbackUrl, some 42⟩ = some 777 ∧
    getWorkflowRunIdFromPayload ⟨none, some sampleCallbackUrl, some 42⟩ = some 12345 ∧
    getWorkflowRunIdFromPayload ⟨none, none, some 42⟩ = some 42 :=
  ⟨(c7_run_id_fallback ⟨some 777, some sampleCallbackUrl, some 42⟩).1 777 (by decide) rfl,
   (c7_run_id_fallback ⟨none, some sampleCallbackUrl, some 42⟩).2.1 rfl
     sampleCallbackUrl 12345 rfl (by rfl),
   (c7_run_id_fallback ⟨none, none, some 42⟩).2.2.2 rfl rfl⟩

/-- C8: the analyzer is total on parse outcomes and never raises: a parse
failure yields the report carrying the parser message with every other
field at its zero value, and a successful parse never yields an error
report. -/
theorem c8_analyze_total :
    (∀ msg : String, analyzeWorkflow (Except.error msg) = ⟨false, [], 0, [], some msg⟩) ∧
    (∀ doc : Option Workflow, (analyzeWorkflow (Except.ok doc)).error = none) := by
  refine ⟨fun msg => rfl, fun doc => ?_⟩
  cases doc with
  | none => rfl
  | some w =>
    obtain ⟨jobs⟩ := w
    cases jobs <;> rfl

/-- C9 counterexample: the claim says a step with a declared name keeps
that name unchanged, but a step whose declared name is the empty string
(falsy in JavaScript) receives the synthesized name instead. -/
theorem c9_empty_name_counterexample :
    (analyzeStep 0 ⟨some "", some "./a"⟩).name = "Step 1" ∧
    ¬ (analyzeStep 0 ⟨some "", some "./a"⟩).name = "" :=
  ⟨rfl, by decide⟩

/-- C9 amended: a step with no declared name, or whose declared name is
the empty string, receives the synthesized name "Step N" with N its
1-based position; a step with a declared non-empty name keeps it. -/
theorem c9_display_name_amended (i : Nat) (s : Step) :
    ((s.name = none ∨ s.name = some "") →
      (analyzeStep i s).name = "Step " ++ toString (i + 1)) ∧
    (∀ n : String, s.name = some n → n ≠ "" → (analyzeStep i s).name = n) := by
  have hname : (analyzeStep i s).name = stepDisplayName i s := by
    cases hu : s.uses with
    | none => simp [analyzeStep, hu]
    | some u => by_cases hu0 : u = "" <;> simp [analyzeStep, hu, hu0]
  constructor
  · intro hcase
    rw [hname]
    rcases hcase with h0 | h0 <;> simp [stepDisplayName, h0]
  · intro n hn hne
    rw [hname]
    simp [stepDisplayName, hn, hne]

/-- Witness for C9 amended: an unnamed fifth step is "Step 5"; a step
named "checkout" keeps its name. -/
theorem c9_display_name_witness :
    (analyzeStep 4 ⟨none, some "./a"⟩).name = "Step 5" ∧
    (analyzeStep 0 ⟨some "checkout", none⟩).name = "checkout" :=
  ⟨((c9_display_name_amended 4 ⟨none, some "./a"⟩).1 (Or.inl rfl)).trans (by rfl),
   (c9_display_name_amended 0 ⟨some "checkout", none⟩).2 "checkout" rfl (by decide)⟩

/-- C10: when the analysis has its error field set, getActionDetails
returns that report itself with no breakdown and no summary, and the
breakdown and summary exist exactly on error-free analyses, over the
unchanged analysis. -/
theorem c10_error_passthrough (parsed : Except String (Option Workflow)) :
    ((analyzeWorkflow parsed).error.isSome = true →
      getActionDetails parsed = ⟨analyzeWorkflow parsed, none, none⟩) ∧
    ((getActionDetails parsed).actionBreakdown.isSome = true ↔
      (analyzeWorkflow parsed).error = none) ∧
    ((getActionDetails parsed).summary.isSome = true ↔
      (analyzeWorkflow parsed).error = none) ∧
    (getActionDetails parsed).analysis = analyzeWorkflow parsed := by
  by_cases hb : (analyzeWorkflow parsed).error.isSome = true
  · have hnone : ¬ (analyzeWorkflow parsed).error = none := by
      intro hc
      rw [hc] at hb
      simp at hb
    refine ⟨fun _ => ?_, ?_, ?_, ?_⟩ <;> simp [getActionDetails, hb, hnone]
  · have hb2 : (analyzeWorkflow parsed).error.isSome = false := by
      simpa using hb
    have hnone : (analyzeWorkflow parsed).error = none := by
      simpa using hb2
    refine ⟨fun hc => absurd hc hb, ?_, ?_, ?_⟩ <;> simp [getActionDetails, hb2, hnone]

/-- Witness for C10: a parse failure report passes through unchanged. -/
theorem c10_error_passthrough_witness :
    getActionDetails (Except.error "bad mapping")
      = ⟨analyzeWorkflow (Except.error "bad mapping"), none, none⟩ :=
  (c10_error_passthrough (Except.error "bad mapping")).1 rfl

end ActionChecker
